import Mathlib

/-!
Verification of the NeuralRAG storage layer (src/neuralrag/src/db.ts, with
types from src/neuralrag/src/types.ts).

The SQLite tables are modelled as Lean lists of row structures, in insertion
order. SQLite REAL values are modelled as rationals, timestamps as rationals
measured in Julian days (the source stores ISO-8601 or datetime strings and
compares them through the monotone julianday conversion), uuid strings as
natural-number ids supplied by the caller, and the JSON metadata text as an
optional string. The foreign-key constraints on synapses.source_id and
synapses.target_id are modelled by passing the list of existing neuron ids;
with PRAGMA foreign_keys ON a violating insert throws even under OR IGNORE,
which is modelled by the Except error branch.
-/

namespace NeuralRag

/-- The SynapseType union from types.ts. -/
inductive SynType where
  | imports
  | calls
  | type_reference
  | «extends»
  | proximity
  | co_activation
  | semantic
deriving DecidableEq

/-- One row of the synapses table (db.ts migrate DDL, lines 75-86). -/
structure SynRow where
  id : Nat
  source_id : String
  target_id : String
  weight : ℚ
  type : SynType
  metadata : Option String
  fire_count : Nat
  last_fired : Option ℚ
  created_at : ℚ
deriving DecidableEq

/-- SynapseCreateInput from types.ts (metadata optional, already serialized). -/
structure SynapseCreateInput where
  source_id : String
  target_id : String
  weight : ℚ
  type : SynType
  metadata : Option String := none
deriving DecidableEq

/-- True when some row already occupies the UNIQUE(source_id, target_id, type)
key, the condition under which INSERT OR IGNORE drops the new row. -/
def tripleConflict (rows : List SynRow) (src tgt : String) (t : SynType) : Bool :=
  rows.any fun r => r.source_id == src && r.target_id == tgt && r.type == t

/-- True when some row already has the candidate primary key. -/
def idConflict (rows : List SynRow) (id : Nat) : Bool :=
  rows.any fun r => r.id == id

/-- Both endpoints satisfy the REFERENCES neurons(id) constraints. -/
def fkOk (neuronIds : List String) (src tgt : String) : Bool :=
  neuronIds.contains src && neuronIds.contains tgt

/-- The row built by the createSynapse INSERT: weight is stored exactly as
given (the statement applies no clamping), fire_count defaults to 0 and
last_fired to NULL per the DDL, created_at is the caller-observed now. -/
def mkSynRow (id : Nat) (now : ℚ) (input : SynapseCreateInput) : SynRow :=
  { id := id
    source_id := input.source_id
    target_id := input.target_id
    weight := input.weight
    type := input.type
    metadata := input.metadata
    fire_count := 0
    last_fired := none
    created_at := now }

/-- getSynapse (db.ts 262-265): SELECT by primary key. -/
def getSynapse (id : Nat) (rows : List SynRow) : Option SynRow :=
  rows.find? fun r => r.id == id

/-- createSynapse (db.ts 230-241): INSERT OR IGNORE, then look the fresh id
back up; the second component is the value the TS function returns, which is
null (none) whenever the insert was ignored and the fresh id was never
stored. Uniqueness conflicts silence the insert; a foreign-key violation is
not covered by OR IGNORE and throws. -/
def createSynapse (neuronIds : List String) (id : Nat) (now : ℚ)
    (input : SynapseCreateInput) (rows : List SynRow) :
    Except String (List SynRow × Option SynRow) :=
  if tripleConflict rows input.source_id input.target_id input.type
      || idConflict rows id then
    .ok (rows, getSynapse id rows)
  else if !(fkOk neuronIds input.source_id input.target_id) then
    .error "FOREIGN KEY constraint failed"
  else
    let rows' := rows ++ [mkSynRow id now input]
    .ok (rows', getSynapse id rows')

/-- The loop body of createSynapsesBatch (db.ts 243-260): each item runs the
same INSERT OR IGNORE; the first thrown error aborts the transaction. -/
def createSynapsesBatchAux (neuronIds : List String) (now : ℚ) :
    List (Nat × SynapseCreateInput) → List SynRow → Except String (List SynRow)
  | [], rows => .ok rows
  | (id, input) :: rest, rows =>
    match createSynapse neuronIds id now input rows with
    | .ok (rows', _) => createSynapsesBatchAux neuronIds now rest rows'
    | .error e => .error e

/-- createSynapsesBatch (db.ts 243-260): the whole list runs inside one
transaction, so an error leaves the caller-visible table untouched. -/
def createSynapsesBatch (neuronIds : List String) (now : ℚ)
    (items : List (Nat × SynapseCreateInput)) (rows : List SynRow) :
    Except String (List SynRow) :=
  createSynapsesBatchAux neuronIds now items rows

/-- strengthenSynapse (db.ts 288-294): the UPDATE matches on source_id and
target_id only — it has no type filter — and on every matched row clamps
weight + delta at 1.0, bumps fire_count and stamps last_fired. -/
def strengthenSynapse (now : ℚ) (sourceId targetId : String) (delta : ℚ)
    (rows : List SynRow) : List SynRow :=
  rows.map fun r =>
    if r.source_id == sourceId && r.target_id == targetId then
      { r with weight := min 1 (r.weight + delta)
               fire_count := r.fire_count + 1
               last_fired := some now }
    else r

/-- weakenSynapse (db.ts 296-302): clamp weight - delta at 0.0 on every row
matching source and target; fire_count and last_fired are untouched. -/
def weakenSynapse (sourceId targetId : String) (delta : ℚ)
    (rows : List SynRow) : List SynRow :=
  rows.map fun r =>
    if r.source_id == sourceId && r.target_id == targetId then
      { r with weight := max 0 (r.weight - delta) }
    else r

/-- The WHERE clause of decayUnusedSynapses: last_fired IS NOT NULL, strictly
more than daysOld Julian days old, and type = co_activation. -/
def decayMatch (now daysOld : ℚ) (r : SynRow) : Bool :=
  match r.last_fired with
  | some t => decide (now - t > daysOld) && r.type == SynType.co_activation
  | none => false

/-- decayUnusedSynapses (db.ts 304-313): clamp weight - delta at 0.0 on every
matched row and return result.changes, the number of rows the UPDATE ran on. -/
def decayUnusedSynapses (now daysOld delta : ℚ) (rows : List SynRow) :
    List SynRow × Nat :=
  (rows.map fun r =>
      if decayMatch now daysOld r then { r with weight := max 0 (r.weight - delta) }
      else r,
   (rows.filter (decayMatch now daysOld)).length)

/-- findOrCreateCoActivationSynapse (db.ts 315-330): if a co_activation row
with these endpoints exists, strengthen with the default delta 0.05; otherwise
create one with weight 0.3 and no metadata, discarding the returned value. -/
def findOrCreateCoActivationSynapse (neuronIds : List String) (id : Nat)
    (now : ℚ) (sourceId targetId : String) (rows : List SynRow) :
    Except String (List SynRow) :=
  if tripleConflict rows sourceId targetId SynType.co_activation then
    .ok (strengthenSynapse now sourceId targetId (1/20) rows)
  else
    match createSynapse neuronIds id now
        { source_id := sourceId
          target_id := targetId
          weight := 3/10
          type := SynType.co_activation
          metadata := none } rows with
    | .ok (rows', _) => .ok (rows')
    | .error e => .error e

/-- The NeuronType union from types.ts. -/
inductive NeuronType where
  | function
  | «class»
  | method
  | type
  | interface
  | module
  | config
  | doc
  | «variable»
  | «export»
deriving DecidableEq

/-- One row of the neurons table (db.ts migrate DDL, lines 57-72). The
embedding BLOB is an optional byte list (NULL versus stored bytes). -/
structure NeuronRow where
  id : String
  content : String
  summary : String
  embedding : Option (List UInt8)
  file_path : String
  start_line : Int
  end_line : Int
  type : NeuronType
  name : String
  language : String
  activation_count : Nat
  last_activated : Option String
  created_at : String
  updated_at : String
deriving DecidableEq

/-- NeuronCreateInput from types.ts: embedding is a Float32Array, modelled by
its underlying byte sequence. -/
structure NeuronCreateInput where
  content : String
  summary : String
  embedding : List UInt8
  file_path : String
  start_line : Int
  end_line : Int
  type : NeuronType
  name : String
  language : String
deriving DecidableEq

/-- The Neuron record handed back to callers (types.ts), with the embedding
materialised as a byte sequence. -/
structure Neuron where
  id : String
  content : String
  summary : String
  embedding : List UInt8
  file_path : String
  start_line : Int
  end_line : Int
  type : NeuronType
  name : String
  language : String
  activation_count : Nat
  last_activated : Option String
  created_at : String
  updated_at : String
deriving DecidableEq

/-- rowToNeuron (db.ts 218-226): a stored blob — a Buffer, truthy in
JavaScript even when zero-length — is reinterpreted as a Float32Array over
its bytes; a NULL column becomes an empty Float32Array. -/
def rowToNeuron (row : NeuronRow) : Neuron :=
  { id := row.id
    content := row.content
    summary := row.summary
    embedding := row.embedding.getD []
    file_path := row.file_path
    start_line := row.start_line
    end_line := row.end_line
    type := row.type
    name := row.name
    language := row.language
    activation_count := row.activation_count
    last_activated := row.last_activated
    created_at := row.created_at
    updated_at := row.updated_at }

/-- getNeuron (db.ts 188-191): SELECT by id, mapped through rowToNeuron. -/
def getNeuron (id : String) (rows : List NeuronRow) : Option Neuron :=
  (rows.find? fun r => r.id == id).map rowToNeuron

/-- The row written by createNeuron's INSERT: input.embedding is a
Float32Array, always truthy in JavaScript, so its bytes are always stored
(a zero-length array is stored as a zero-length blob, not NULL);
activation_count and last_activated take the DDL defaults, created_at and
updated_at the caller-observed now. -/
def mkNeuronRow (id now : String) (input : NeuronCreateInput) : NeuronRow :=
  { id := id
    content := input.content
    summary := input.summary
    embedding := some input.embedding
    file_path := input.file_path
    start_line := input.start_line
    end_line := input.end_line
    type := input.type
    name := input.name
    language := input.language
    activation_count := 0
    last_activated := none
    created_at := now
    updated_at := now }

/-- createNeuron (db.ts 123-149): a plain INSERT (no OR IGNORE), so a
duplicate primary key throws; on success the fresh id is read back through
getNeuron. -/
def createNeuron (id now : String) (input : NeuronCreateInput)
    (rows : List NeuronRow) : Except String (List NeuronRow × Option Neuron) :=
  if rows.any (fun r => r.id == id) then
    .error "UNIQUE constraint failed: neurons.id"
  else
    let rows' := rows ++ [mkNeuronRow id now input]
    .ok (rows', getNeuron id rows')

/-- Outcome of the migrate run: the schema_version row left in _meta, and
whether the version-1 DDL block was executed. -/
structure MigrateOutcome where
  schemaVersionAfter : Option Int
  ranDDL : Bool
deriving DecidableEq

/-- migrate (db.ts 40-119): read schema_version from _meta (absent parses to
0), and when it is below 1 create the tables and store SCHEMA_VERSION = 1.
The source contains no comparison against a newer stored version and no
throw: any version at or above 1 simply skips the DDL block and leaves the
stored value untouched. -/
def migrate (stored : Option Int) : Except String MigrateOutcome :=
  let currentVersion : Int := stored.getD 0
  if currentVersion < 1 then
    .ok { schemaVersionAfter := some 1, ranDDL := true }
  else
    .ok { schemaVersionAfter := stored, ranDDL := false }

/-- The synapse-mutating Store operations the invariant claims range over.
Each carries the caller-side nondeterminism (fresh uuid, wall clock) as
explicit data. -/
inductive StoreOp where
  | createOp (id : Nat) (now : ℚ) (input : SynapseCreateInput)
  | createBatchOp (now : ℚ) (items : List (Nat × SynapseCreateInput))
  | strengthenOp (now : ℚ) (src tgt : String) (delta : ℚ)
  | weakenOp (src tgt : String) (delta : ℚ)
  | decayOp (now daysOld delta : ℚ)
  | observeOp (id : Nat) (now : ℚ) (src tgt : String)

/-- Run one operation against the synapses table. A thrown insert aborts its
(implicit) transaction, leaving the table unchanged. -/
def applyOp (neuronIds : List String) (rows : List SynRow) :
    StoreOp → List SynRow
  | .createOp id now input =>
    match createSynapse neuronIds id now input rows with
    | .ok (rows', _) => rows'
    | .error _ => rows
  | .createBatchOp now items =>
    match createSynapsesBatch neuronIds now items rows with
    | .ok rows' => rows'
    | .error _ => rows
  | .strengthenOp now src tgt delta => strengthenSynapse now src tgt delta rows
  | .weakenOp src tgt delta => weakenSynapse src tgt delta rows
  | .decayOp now daysOld delta => (decayUnusedSynapses now daysOld delta rows).1
  | .observeOp id now src tgt =>
    match findOrCreateCoActivationSynapse neuronIds id now src tgt rows with
    | .ok rows' => rows'
    | .error _ => rows

/-- Run a sequence of operations left to right. -/
def applyOps (neuronIds : List String) (ops : List StoreOp)
    (rows : List SynRow) : List SynRow :=
  ops.foldl (applyOp neuronIds) rows

/-- Every stored weight lies in the unit interval. -/
def weightInv (rows : List SynRow) : Prop :=
  ∀ r ∈ rows, 0 ≤ r.weight ∧ r.weight ≤ 1

/-- The side conditions of the weight invariant: inserted weights lie in
the unit interval and adjustment magnitudes are nonnegative. -/
def opWeightsOK : StoreOp → Bool
  | .createOp _ _ input =>
    decide (0 ≤ input.weight) && decide (input.weight ≤ 1)
  | .createBatchOp _ items =>
    items.all fun p => decide (0 ≤ p.2.weight) && decide (p.2.weight ≤ 1)
  | .strengthenOp _ _ _ delta => decide (0 ≤ delta)
  | .weakenOp _ _ delta => decide (0 ≤ delta)
  | .decayOp _ _ delta => decide (0 ≤ delta)
  | .observeOp _ _ _ _ => true

/-- No stored row is a self-loop. -/
def noSelfLoop (rows : List SynRow) : Prop :=
  ∀ r ∈ rows, r.source_id ≠ r.target_id

/-- The side condition under which the no-self-loop invariant is preserved:
no operation is invoked with equal endpoints on a path that inserts. -/
def opNoLoopOK : StoreOp → Bool
  | .createOp _ _ input => !(input.source_id == input.target_id)
  | .createBatchOp _ items =>
    items.all fun p => !(p.2.source_id == p.2.target_id)
  | .strengthenOp _ _ _ _ => true
  | .weakenOp _ _ _ => true
  | .decayOp _ _ _ => true
  | .observeOp _ _ src tgt => !(src == tgt)

/-- The weight of the first (unique) co_activation row between the given
endpoints, when one exists. -/
def coWeight (a b : String) (rows : List SynRow) : Option ℚ :=
  (rows.find? fun r =>
      r.source_id == a && r.target_id == b && r.type == SynType.co_activation).map
    SynRow.weight

/-- Iterate findOrCreateCoActivationSynapse. After the first call a
co_activation row exists, so the fresh id is only consulted once; an error
stops the iteration with the table unchanged, as in applyOp. -/
def observeIter (neuronIds : List String) (id : Nat) (now : ℚ)
    (sourceId targetId : String) : Nat → List SynRow → List SynRow
  | 0, rows => rows
  | n + 1, rows =>
    match findOrCreateCoActivationSynapse neuronIds id now sourceId targetId rows with
    | .ok rows' => observeIter neuronIds id now sourceId targetId n rows'
    | .error _ => rows

/-! Shared demonstration rows for concrete instances. -/

/-- A co_activation synapse from a to b with weight 0.3. -/
def coRow : SynRow :=
  { id := 1, source_id := "a", target_id := "b", weight := 3/10
    type := SynType.co_activation, metadata := none
    fire_count := 0, last_fired := none, created_at := 0 }

/-- A structural imports synapse between the same endpoints, weight 0.8. -/
def impRow : SynRow :=
  { id := 2, source_id := "a", target_id := "b", weight := 4/5
    type := SynType.imports, metadata := none
    fire_count := 0, last_fired := none, created_at := 0 }

/-- The co_activation row with a last_fired stamp at Julian day 0. -/
def staleRow : SynRow := { coRow with last_fired := some 0 }

/-! Shared helper lemmas. -/

/-- Clamping at 1 is absorbed by a later clamped nonnegative increment. -/
theorem min_one_add_absorb (x d : ℚ) (hd : 0 ≤ d) :
    min 1 (min 1 x + d) = min 1 (x + d) := by
  rcases le_total x 1 with h | h
  · rw [min_eq_right h]
  · rw [min_eq_left h, min_eq_left (by linarith), min_eq_left (by linarith)]

/-- A false idConflict check means the candidate primary key is absent. -/
theorem getSynapse_eq_none (id : Nat) (rows : List SynRow)
    (h : idConflict rows id = false) : getSynapse id rows = none := by
  apply List.find?_eq_none.mpr
  intro r hrm hc
  have hany : rows.any (fun r => r.id == id) = true :=
    List.any_eq_true.mpr ⟨r, hrm, hc⟩
  rw [idConflict] at h
  rw [h] at hany
  exact Bool.noConfusion hany

/-- Looking a fresh id up after appending its row finds exactly that row. -/
theorem getSynapse_append_fresh (id : Nat) (now : ℚ)
    (input : SynapseCreateInput) (rows : List SynRow)
    (h : idConflict rows id = false) :
    getSynapse id (rows ++ [mkSynRow id now input]) =
      some (mkSynRow id now input) := by
  unfold getSynapse
  rw [List.find?_append,
    show List.find? (fun r => r.id == id) rows = none from getSynapse_eq_none id rows h]
  simp [mkSynRow]

/-- A co_activation weight is recorded only when the triple is present. -/
theorem tripleConflict_of_coWeight (a b : String) (rows : List SynRow) (w : ℚ)
    (h : coWeight a b rows = some w) :
    tripleConflict rows a b SynType.co_activation = true := by
  unfold coWeight at h
  cases hf : List.find? (fun r =>
      r.source_id == a && r.target_id == b && r.type == SynType.co_activation) rows with
  | none => rw [hf] at h; simp at h
  | some r =>
    have hp := List.find?_some hf
    have hm := List.mem_of_find?_eq_some hf
    exact List.any_eq_true.mpr ⟨r, hm, hp⟩

/-- Strengthening preserves the first co_activation row between the endpoints
and clamps its weight, because the update never changes endpoints or type. -/
theorem coWeight_strengthen (now : ℚ) (a b : String) (d : ℚ)
    (rows : List SynRow) (w : ℚ) (h : coWeight a b rows = some w) :
    coWeight a b (strengthenSynapse now a b d rows) = some (min 1 (w + d)) := by
  unfold coWeight strengthenSynapse at *
  rw [List.find?_map]
  have hcong : ((fun r : SynRow =>
      r.source_id == a && r.target_id == b && r.type == SynType.co_activation) ∘
      (fun r : SynRow =>
        if r.source_id == a && r.target_id == b then
          { r with weight := min 1 (r.weight + d)
                   fire_count := r.fire_count + 1
                   last_fired := some now }
        else r)) = (fun r : SynRow =>
      r.source_id == a && r.target_id == b && r.type == SynType.co_activation) := by
    funext r
    simp only [Function.comp_apply]
    split <;> rfl
  rw [hcong]
  cases hf : List.find? (fun r =>
      r.source_id == a && r.target_id == b && r.type == SynType.co_activation) rows with
  | none => rw [hf] at h; simp at h
  | some r =>
    rw [hf] at h
    have hp := List.find?_some hf
    have hc : r.source_id = a ∧ r.target_id = b := by
      simp only [Bool.and_eq_true, beq_iff_eq] at hp
      exact ⟨hp.1.1, hp.1.2⟩
    have hw : r.weight = w := by simpa using h
    simp [hc.1, hc.2, hw]

/-! C5 -/

/-- C5 counterexample: the source migrate contains no version check — opening
a store whose persisted schema_version is 2, newer than the implementation's
SCHEMA_VERSION = 1, succeeds (no error is possible), silently skipping the
DDL and leaving the stored version in place, instead of failing fatally. -/
theorem migrate_newer_version_not_fatal :
    migrate (some 2) = .ok { schemaVersionAfter := some 2, ranDDL := false } ∧
    ¬ ∃ e, migrate (some 2) = .error e := by
  refine ⟨rfl, ?_⟩
  rintro ⟨e, h⟩
  rw [show migrate (some 2) =
      Except.ok { schemaVersionAfter := some 2, ranDDL := false } from rfl] at h
  exact Except.noConfusion h

/-- C5 amended: opening a store whose persisted schema_version is at least
the known version 1 is not an error: migrate returns successfully, runs no
DDL, and leaves the stored version unchanged. -/
theorem migrate_newer_version_noop (v : Int) (hv : 1 ≤ v) :
    migrate (some v) = .ok { schemaVersionAfter := some v, ranDDL := false } := by
  unfold migrate
  rw [if_neg]
  simp only [Option.getD_some]
  omega

/-- Witness for migrate_newer_version_noop at version 5. -/
theorem migrate_newer_version_noop_witness :
    migrate (some 5) = .ok { schemaVersionAfter := some 5, ranDDL := false } :=
  migrate_newer_version_noop 5 (by norm_num)

/-! C6 -/

/-- C6: decayUnusedSynapses matches exactly the co_activation rows whose
non-null last_fired lies strictly more than daysOld Julian days in the past;
each matched row has its weight decremented by delta and clamped at 0 (never
negative) with all other fields intact, every unmatched row — structural or
with null last_fired — is untouched, and the returned count is the number of
rows the UPDATE ran on. -/
theorem decay_unused_synapses_spec (now daysOld delta : ℚ)
    (rows : List SynRow) (i : Nat) (r : SynRow) (hr : rows[i]? = some r) :
    (decayMatch now daysOld r = true ↔
       r.type = SynType.co_activation ∧
       ∃ t, r.last_fired = some t ∧ now - t > daysOld) ∧
    (decayMatch now daysOld r = true →
       (decayUnusedSynapses now daysOld delta rows).1[i]? =
         some { r with weight := max 0 (r.weight - delta) } ∧
       0 ≤ max 0 (r.weight - delta)) ∧
    (decayMatch now daysOld r = false →
       (decayUnusedSynapses now daysOld delta rows).1[i]? = some r) ∧
    (decayUnusedSynapses now daysOld delta rows).2 =
      (rows.filter (decayMatch now daysOld)).length := by
  refine ⟨?_, ?_, ?_, rfl⟩
  · cases hlf : r.last_fired with
    | none => simp [decayMatch, hlf]
    | some t =>
      simp only [decayMatch, hlf, Bool.and_eq_true, decide_eq_true_eq, beq_iff_eq]
      constructor
      · rintro ⟨h1, h2⟩
        exact ⟨h2, t, rfl, h1⟩
      · rintro ⟨h2, t', ht', h1⟩
        cases ht'
        exact ⟨h1, h2⟩
  · intro hm
    refine ⟨?_, le_max_left 0 _⟩
    simp [decayUnusedSynapses, List.getElem?_map, hr, hm]
  · intro hm
    simp [decayUnusedSynapses, List.getElem?_map, hr, hm]

/-- Witness for decay_unused_synapses_spec: at Julian day 10, a co_activation
row last fired at day 0 is more than 7 days stale and decays, while the
imports row beside it is untouched. -/
theorem decay_unused_synapses_spec_witness :
    ((decayUnusedSynapses 10 7 (1/20) [staleRow, impRow]).1[0]? =
       some { staleRow with weight := max 0 (staleRow.weight - 1/20) } ∧
     0 ≤ max 0 (staleRow.weight - 1/20)) ∧
    (decayUnusedSynapses 10 7 (1/20) [staleRow, impRow]).1[1]? = some impRow := by
  constructor
  · exact (decay_unused_synapses_spec 10 7 (1/20) [staleRow, impRow] 0 staleRow
      rfl).2.1 (by norm_num [decayMatch, staleRow, coRow])
  · exact (decay_unused_synapses_spec 10 7 (1/20) [staleRow, impRow] 1 impRow
      rfl).2.2.1 (by norm_num [decayMatch, impRow])

/-! C8 -/

/-- C8: on every row matching the given source and target, strengthenSynapse
sets the weight to min 1 (weight + delta), increments fire_count by exactly 1
and stamps last_fired with the current time, while weakenSynapse sets the
weight to max 0 (weight - delta) and leaves fire_count and last_fired
untouched; rows with other endpoints are unchanged by both. -/
theorem adjust_weight_row_spec (now : ℚ) (s t : String) (dPlus dMinus : ℚ)
    (rows : List SynRow) (i : Nat) (r : SynRow) (hr : rows[i]? = some r) :
    ((r.source_id = s ∧ r.target_id = t) →
      (strengthenSynapse now s t dPlus rows)[i]? =
        some { r with weight := min 1 (r.weight + dPlus)
                      fire_count := r.fire_count + 1
                      last_fired := some now } ∧
      (weakenSynapse s t dMinus rows)[i]? =
        some { r with weight := max 0 (r.weight - dMinus) }) ∧
    ((¬ (r.source_id = s ∧ r.target_id = t)) →
      (strengthenSynapse now s t dPlus rows)[i]? = some r ∧
      (weakenSynapse s t dMinus rows)[i]? = some r) := by
  constructor
  · rintro ⟨hs, ht⟩
    constructor
    · simp [strengthenSynapse, List.getElem?_map, hr, hs, ht]
    · simp [weakenSynapse, List.getElem?_map, hr, hs, ht]
  · intro hne
    constructor
    · simp [strengthenSynapse, List.getElem?_map, hr, hne]
    · simp [weakenSynapse, List.getElem?_map, hr, hne]

/-- Witness for adjust_weight_row_spec on a concrete two-row table: the
matching co_activation row is updated by both operations, the row with
different endpoints is untouched. -/
theorem adjust_weight_row_spec_witness :
    ((strengthenSynapse 100 "a" "b" (1/20) [coRow])[0]? =
       some { coRow with weight := min 1 (coRow.weight + 1/20)
                         fire_count := coRow.fire_count + 1
                         last_fired := some 100 } ∧
     (weakenSynapse "a" "b" (1/100) [coRow])[0]? =
       some { coRow with weight := max 0 (coRow.weight - 1/100) }) ∧
    ((strengthenSynapse 100 "a" "x" (1/20) [coRow])[0]? = some coRow ∧
     (weakenSynapse "a" "x" (1/100) [coRow])[0]? = some coRow) := by
  constructor
  · exact (adjust_weight_row_spec 100 "a" "b" (1/20) (1/100) [coRow] 0 coRow
      rfl).1 (by norm_num [coRow])
  · exact (adjust_weight_row_spec 100 "a" "x" (1/20) (1/100) [coRow] 0 coRow
      rfl).2 (by rintro ⟨h1, h2⟩; exact absurd h2 (by decide))

/-! C10 -/

/-- C10: when the (source_id, target_id, type) triple already exists, the
INSERT OR IGNORE in createSynapse is dropped, the table is unchanged, and
the function returns the lookup of the never-stored fresh id — none — not
the existing synapse, despite the declared non-null return type. -/
theorem create_synapse_duplicate_returns_none (neuronIds : List String)
    (id : Nat) (now : ℚ) (input : SynapseCreateInput) (rows : List SynRow)
    (hdup : tripleConflict rows input.source_id input.target_id input.type = true)
    (hfresh : idConflict rows id = false) :
    createSynapse neuronIds id now input rows = .ok (rows, none) := by
  unfold createSynapse
  rw [hdup]
  simp [getSynapse_eq_none id rows hfresh]

/-- Witness for create_synapse_duplicate_returns_none: re-creating the
already-present co_activation edge returns none and stores nothing. -/
theorem create_synapse_duplicate_returns_none_witness :
    createSynapse ["a", "b"] 7 0
      { source_id := "a", target_id := "b", weight := 1/2
        type := SynType.co_activation, metadata := none } [coRow] =
      .ok ([coRow], none) :=
  create_synapse_duplicate_returns_none ["a", "b"] 7 0
    { source_id := "a", target_id := "b", weight := 1/2
      type := SynType.co_activation, metadata := none } [coRow]
    (by norm_num [tripleConflict, coRow]) (by norm_num [idConflict, coRow])

/-! C7 -/

/-- C7 counterexample: with a co_activation row and a structural imports row
between the same endpoints a and b, observe_co_activation(a, b) strengthens
BOTH — the UPDATE in strengthenSynapse has no type filter — so the imports
row's weight moves from 0.8 to 0.85 and its fire_count from 0 to 1, refuting
the claim that only the co_activation synapse changes. -/
theorem strengthen_hits_structural_synapse :
    findOrCreateCoActivationSynapse ["a", "b"] 99 100 "a" "b" [coRow, impRow] =
      .ok [{ coRow with weight := 7/20, fire_count := 1, last_fired := some 100 },
           { impRow with weight := 17/20, fire_count := 1, last_fired := some 100 }] ∧
    impRow.weight = 4/5 ∧ impRow.fire_count = 0 := by
  refine ⟨?_, rfl, rfl⟩
  norm_num [findOrCreateCoActivationSynapse, tripleConflict, strengthenSynapse,
    coRow, impRow]

/-- C7 amended: when observe_co_activation(a, b) finds an existing
(a, b, co_activation) synapse, it strengthens every synapse whose source is a
and target is b regardless of type — weight clamped at 1 after adding 0.05,
fire_count incremented, last_fired stamped — while every synapse with any
other endpoint pair keeps its weight, fire_count and last_fired unchanged. -/
theorem observe_strengthens_all_types_between_endpoints
    (neuronIds : List String) (id : Nat) (now : ℚ) (a b : String)
    (rows : List SynRow)
    (hex : tripleConflict rows a b SynType.co_activation = true)
    (i : Nat) (r : SynRow) (hr : rows[i]? = some r) :
    findOrCreateCoActivationSynapse neuronIds id now a b rows =
      .ok (strengthenSynapse now a b (1/20) rows) ∧
    ((r.source_id ≠ a ∨ r.target_id ≠ b) →
      (strengthenSynapse now a b (1/20) rows)[i]? = some r) ∧
    ((r.source_id = a ∧ r.target_id = b) →
      (strengthenSynapse now a b (1/20) rows)[i]? =
        some { r with weight := min 1 (r.weight + 1/20)
                      fire_count := r.fire_count + 1
                      last_fired := some now }) := by
  refine ⟨?_, ?_, ?_⟩
  · unfold findOrCreateCoActivationSynapse
    rw [hex]
    simp
  · intro hne
    have hne' : ¬ (r.source_id = a ∧ r.target_id = b) := by
      rintro ⟨h1, h2⟩
      rcases hne with h | h <;> exact h (by assumption)
    simp [strengthenSynapse, List.getElem?_map, hr, hne']
  · rintro ⟨hs, ht⟩
    simp [strengthenSynapse, List.getElem?_map, hr, hs, ht]

/-- Witness for observe_strengthens_all_types_between_endpoints: the imports
row shares endpoints with the co_activation row and is strengthened too. -/
theorem observe_strengthens_all_types_witness :
    findOrCreateCoActivationSynapse ["a", "b"] 99 100 "a" "b" [coRow, impRow] =
      .ok (strengthenSynapse 100 "a" "b" (1/20) [coRow, impRow]) ∧
    (strengthenSynapse 100 "a" "b" (1/20) [coRow, impRow])[1]? =
      some { impRow with weight := min 1 (impRow.weight + 1/20)
                         fire_count := impRow.fire_count + 1
                         last_fired := some 100 } := by
  have h := observe_strengthens_all_types_between_endpoints ["a", "b"] 99 100
    "a" "b" [coRow, impRow] (by norm_num [tripleConflict, coRow, impRow]) 1 impRow rfl
  exact ⟨h.1, h.2.2 (by norm_num [impRow])⟩

/-! C3 -/

/-- A batch whose items all collide on the unique key changes nothing. -/
theorem batchAux_all_duplicates (neuronIds : List String) (now : ℚ)
    (items : List (Nat × SynapseCreateInput)) (rows : List SynRow)
    (hdup : ∀ p ∈ items,
      tripleConflict rows p.2.source_id p.2.target_id p.2.type = true) :
    createSynapsesBatchAux neuronIds now items rows = .ok rows := by
  induction items with
  | nil => rfl
  | cons p rest ih =>
    obtain ⟨pid, pinput⟩ := p
    have hp := hdup (pid, pinput) (List.mem_cons_self _ _)
    have hcs : createSynapse neuronIds pid now pinput rows =
        .ok (rows, getSynapse pid rows) := by
      unfold createSynapse
      rw [hp]
      simp
    simp only [createSynapsesBatchAux, hcs]
    exact ih fun q hq => hdup q (List.mem_cons_of_mem _ hq)

/-- C3: createSynapse and createSynapsesBatch are insert-if-absent on the
(source_id, target_id, type) key. A first create on an absent triple appends
one row carrying the input weight; a second create with the same triple (any
weight) leaves the table unchanged; the result holds exactly one row for the
triple, bearing the first call's weight; and a batch made of already-present
triples leaves the stored edge set unchanged. -/
theorem create_synapse_insert_if_absent (neuronIds : List String)
    (id1 id2 : Nat) (now1 now2 : ℚ) (input input2 : SynapseCreateInput)
    (rows rows2 : List SynRow) (items : List (Nat × SynapseCreateInput))
    (habs : tripleConflict rows input.source_id input.target_id input.type = false)
    (hfk : fkOk neuronIds input.source_id input.target_id = true)
    (hid : idConflict rows id1 = false)
    (hsame : input2.source_id = input.source_id ∧
             input2.target_id = input.target_id ∧ input2.type = input.type)
    (hdup : ∀ p ∈ items,
      tripleConflict rows2 p.2.source_id p.2.target_id p.2.type = true) :
    createSynapse neuronIds id1 now1 input rows =
      .ok (rows ++ [mkSynRow id1 now1 input], some (mkSynRow id1 now1 input)) ∧
    createSynapse neuronIds id2 now2 input2 (rows ++ [mkSynRow id1 now1 input]) =
      .ok (rows ++ [mkSynRow id1 now1 input],
           getSynapse id2 (rows ++ [mkSynRow id1 now1 input])) ∧
    (rows ++ [mkSynRow id1 now1 input]).filter
        (fun r => r.source_id == input.source_id &&
                  r.target_id == input.target_id && r.type == input.type) =
      [mkSynRow id1 now1 input] ∧
    createSynapsesBatch neuronIds now2 items rows2 = .ok rows2 := by
  refine ⟨?_, ?_, ?_, batchAux_all_duplicates neuronIds now2 items rows2 hdup⟩
  · have hget := getSynapse_append_fresh id1 now1 input rows hid
    unfold createSynapse
    rw [habs, hid, hfk]
    simp [hget]
  · have htc : tripleConflict (rows ++ [mkSynRow id1 now1 input])
        input2.source_id input2.target_id input2.type = true := by
      apply List.any_eq_true.mpr
      refine ⟨mkSynRow id1 now1 input, by simp, ?_⟩
      simp [mkSynRow, hsame.1, hsame.2.1, hsame.2.2]
    unfold createSynapse
    rw [htc]
    simp
  · rw [List.filter_append]
    have h1 : rows.filter (fun r => r.source_id == input.source_id &&
        r.target_id == input.target_id && r.type == input.type) = [] := by
      apply List.filter_eq_nil_iff.mpr
      simp only [tripleConflict, List.any_eq_false] at habs
      exact habs
    rw [h1]
    simp [mkSynRow]

/-- Witness for create_synapse_insert_if_absent: create the N1-to-N3 imports
edge at weight 0.5 twice, the second time at weight 0.9; then batch-insert a
duplicate of an existing edge. -/
theorem create_synapse_insert_if_absent_witness :
    createSynapse ["N1", "N3"] 1 0
      { source_id := "N1", target_id := "N3", weight := 1/2
        type := SynType.imports, metadata := none } [] =
      .ok ([mkSynRow 1 0 { source_id := "N1", target_id := "N3", weight := 1/2
                           type := SynType.imports, metadata := none }],
           some (mkSynRow 1 0 { source_id := "N1", target_id := "N3", weight := 1/2
                                type := SynType.imports, metadata := none })) ∧
    createSynapse ["N1", "N3"] 2 5
      { source_id := "N1", target_id := "N3", weight := 9/10
        type := SynType.imports, metadata := none }
      ([] ++ [mkSynRow 1 0 { source_id := "N1", target_id := "N3", weight := 1/2
                             type := SynType.imports, metadata := none }]) =
      .ok ([] ++ [mkSynRow 1 0 { source_id := "N1", target_id := "N3", weight := 1/2
                                 type := SynType.imports, metadata := none }],
           getSynapse 2 ([] ++ [mkSynRow 1 0
             { source_id := "N1", target_id := "N3", weight := 1/2
               type := SynType.imports, metadata := none }])) ∧
    createSynapsesBatch ["a", "b"] 9
      [(3, { source_id := "a", target_id := "b", weight := 1/4
             type := SynType.co_activation, metadata := none })] [coRow] =
      .ok [coRow] := by
  have h := create_synapse_insert_if_absent ["N1", "N3"] 1 2 0 5
    { source_id := "N1", target_id := "N3", weight := 1/2
      type := SynType.imports, metadata := none }
    { source_id := "N1", target_id := "N3", weight := 9/10
      type := SynType.imports, metadata := none }
    [] [coRow]
    [(3, { source_id := "a", target_id := "b", weight := 1/4
           type := SynType.co_activation, metadata := none })]
    rfl rfl rfl ⟨rfl, rfl, rfl⟩
    (by intro p hp
        simp only [List.mem_singleton] at hp
        subst hp
        norm_num [tripleConflict, coRow])
  exact ⟨h.1, h.2.1, h.2.2.2⟩

/-! C2 -/

/-- Iterating observe on a table that already holds the co_activation row
clamps its weight to min 1 (w + n/20): each step strengthens by 0.05. -/
theorem coWeight_observeIter (neuronIds : List String) (id : Nat) (now : ℚ)
    (a b : String) (n : Nat) (rows : List SynRow) (w : ℚ)
    (h : coWeight a b rows = some w) (h0 : 0 ≤ w) (h1 : w ≤ 1) :
    coWeight a b (observeIter neuronIds id now a b n rows) =
      some (min 1 (w + (n : ℚ) * (1/20))) := by
  induction n generalizing rows w with
  | zero =>
    simp only [observeIter, Nat.cast_zero, zero_mul, add_zero]
    rw [h, min_eq_right h1]
  | succ n ih =>
    have htc := tripleConflict_of_coWeight a b rows w h
    have hobs : findOrCreateCoActivationSynapse neuronIds id now a b rows =
        .ok (strengthenSynapse now a b (1/20) rows) := by
      unfold findOrCreateCoActivationSynapse
      rw [htc]
      simp
    rw [observeIter, hobs]
    have hstep := coWeight_strengthen now a b (1/20) rows w h
    have ihh := ih (strengthenSynapse now a b (1/20) rows) (min 1 (w + 1/20))
      hstep (le_min (by norm_num) (by linarith)) (min_le_left _ _)
    rw [ihh, min_one_add_absorb _ _ (by positivity)]
    congr 1
    push_cast
    ring_nf

/-- C2: observe_co_activation(a, b) creates the (a, b, co_activation) synapse
with weight exactly 0.3 when it is absent (given existing endpoints and a
fresh id), and when it is present each call clamps weight + 0.05 at 1, so
after n calls the weight is min 1 (w + n/20) — never above 1, and exactly 1
once n reaches 20. -/
theorem observe_co_activation_spec (neuronIds : List String) (id : Nat)
    (now : ℚ) (a b : String) (rows : List SynRow) (w : ℚ) (n : Nat) :
    (tripleConflict rows a b SynType.co_activation = false →
     fkOk neuronIds a b = true → idConflict rows id = false →
     findOrCreateCoActivationSynapse neuronIds id now a b rows =
       .ok (rows ++ [{ id := id, source_id := a, target_id := b
                       weight := 3/10, type := SynType.co_activation
                       metadata := none, fire_count := 0, last_fired := none
                       created_at := now }])) ∧
    (coWeight a b rows = some w → 0 ≤ w → w ≤ 1 →
     coWeight a b (observeIter neuronIds id now a b n rows) =
       some (min 1 (w + (n : ℚ) * (1/20))) ∧
     min 1 (w + (n : ℚ) * (1/20)) ≤ 1 ∧
     (20 ≤ n →
       coWeight a b (observeIter neuronIds id now a b n rows) = some 1)) := by
  constructor
  · intro habs hfk hid
    unfold findOrCreateCoActivationSynapse
    rw [habs]
    have hcs : createSynapse neuronIds id now
        { source_id := a, target_id := b, weight := 3/10
          type := SynType.co_activation, metadata := none } rows =
        .ok (rows ++ [mkSynRow id now
          { source_id := a, target_id := b, weight := 3/10
            type := SynType.co_activation, metadata := none }],
          getSynapse id (rows ++ [mkSynRow id now
            { source_id := a, target_id := b, weight := 3/10
              type := SynType.co_activation, metadata := none }])) := by
      unfold createSynapse
      rw [habs, hid, hfk]
      simp
    simp only [Bool.false_eq_true, if_false, hcs]
    simp [mkSynRow]
  · intro h h0 h1
    have hiter := coWeight_observeIter neuronIds id now a b n rows w h h0 h1
    refine ⟨hiter, min_le_left _ _, fun hn => ?_⟩
    rw [hiter, min_eq_left ?_]
    have h20 : (20 : ℚ) ≤ (n : ℚ) := by exact_mod_cast hn
    linarith

/-- Witness for observe_co_activation_spec: on an empty table the call
creates the 0.3-weight edge; on a table holding the 0.3-weight edge, 20
repetitions drive the co_activation weight to exactly 1. -/
theorem observe_co_activation_spec_witness :
    findOrCreateCoActivationSynapse ["a", "b"] 1 0 "a" "b" [] =
      .ok [{ id := 1, source_id := "a", target_id := "b", weight := 3/10
             type := SynType.co_activation, metadata := none, fire_count := 0
             last_fired := none, created_at := 0 }] ∧
    coWeight "a" "b" (observeIter ["a", "b"] 2 0 "a" "b" 20 [coRow]) = some 1 := by
  constructor
  · exact (observe_co_activation_spec ["a", "b"] 1 0 "a" "b" [] 0 0).1 rfl rfl rfl
  · exact ((observe_co_activation_spec ["a", "b"] 2 0 "a" "b" [coRow]
      (3/10) 20).2 rfl (by norm_num) (by norm_num)).2.2 (le_refl 20)

/-! C1 -/

/-- createSynapse preserves the weight invariant when the inserted weight
lies in the unit interval: conflicts leave the table unchanged and the
success path appends a row bearing exactly the input weight. -/
theorem weightInv_createSynapse (neuronIds : List String) (id : Nat) (now : ℚ)
    (input : SynapseCreateInput) (rows rows' : List SynRow)
    (ret : Option SynRow) (hinv : weightInv rows)
    (hw0 : 0 ≤ input.weight) (hw1 : input.weight ≤ 1)
    (h : createSynapse neuronIds id now input rows = .ok (rows', ret)) :
    weightInv rows' := by
  unfold createSynapse at h
  split at h
  · simp only [Except.ok.injEq, Prod.mk.injEq] at h
    rw [← h.1]
    exact hinv
  · split at h
    · exact absurd h (by simp)
    · simp only [Except.ok.injEq, Prod.mk.injEq] at h
      rw [← h.1]
      intro r hm
      rcases List.mem_append.mp hm with hm | hm
      · exact hinv r hm
      · rw [List.mem_singleton.mp hm]
        exact ⟨hw0, hw1⟩

/-- The batch loop preserves the weight invariant when every item's weight
lies in the unit interval. -/
theorem weightInv_batchAux (neuronIds : List String) (now : ℚ)
    (items : List (Nat × SynapseCreateInput)) :
    ∀ rows rows', weightInv rows →
    (∀ p ∈ items, 0 ≤ p.2.weight ∧ p.2.weight ≤ 1) →
    createSynapsesBatchAux neuronIds now items rows = .ok rows' →
    weightInv rows' := by
  induction items with
  | nil =>
    intro rows rows' hinv _ h
    simp only [createSynapsesBatchAux, Except.ok.injEq] at h
    rw [← h]
    exact hinv
  | cons p rest ih =>
    intro rows rows' hinv hws h
    obtain ⟨pid, pinput⟩ := p
    rw [createSynapsesBatchAux] at h
    cases hcs : createSynapse neuronIds pid now pinput rows with
    | ok pr =>
      obtain ⟨rows1, ret⟩ := pr
      rw [hcs] at h
      have hw := hws (pid, pinput) (List.mem_cons_self _ _)
      exact ih rows1 rows'
        (weightInv_createSynapse neuronIds pid now pinput rows rows1 ret hinv
          hw.1 hw.2 hcs)
        (fun q hq => hws q (List.mem_cons_of_mem _ hq)) h
    | error e =>
      rw [hcs] at h
      exact absurd h (by simp)

/-- A nonnegative strengthen delta keeps every weight in the unit interval. -/
theorem weightInv_strengthen (now : ℚ) (s t : String) (d : ℚ)
    (rows : List SynRow) (hd : 0 ≤ d) (hinv : weightInv rows) :
    weightInv (strengthenSynapse now s t d rows) := by
  intro r' hm
  rcases List.mem_map.mp hm with ⟨r, hr, rfl⟩
  obtain ⟨hw0, hw1⟩ := hinv r hr
  by_cases hc : (r.source_id == s && r.target_id == t) = true
  · rw [if_pos hc]
    exact ⟨le_min (by norm_num) (by linarith), min_le_left _ _⟩
  · rw [if_neg hc]
    exact ⟨hw0, hw1⟩

/-- A nonnegative weaken delta keeps every weight in the unit interval. -/
theorem weightInv_weaken (s t : String) (d : ℚ) (rows : List SynRow)
    (hd : 0 ≤ d) (hinv : weightInv rows) :
    weightInv (weakenSynapse s t d rows) := by
  intro r' hm
  rcases List.mem_map.mp hm with ⟨r, hr, rfl⟩
  obtain ⟨hw0, hw1⟩ := hinv r hr
  by_cases hc : (r.source_id == s && r.target_id == t) = true
  · rw [if_pos hc]
    exact ⟨le_max_left _ _, max_le (by norm_num) (by linarith)⟩
  · rw [if_neg hc]
    exact ⟨hw0, hw1⟩

/-- A nonnegative decay delta keeps every weight in the unit interval. -/
theorem weightInv_decay (now daysOld d : ℚ) (rows : List SynRow)
    (hd : 0 ≤ d) (hinv : weightInv rows) :
    weightInv (decayUnusedSynapses now daysOld d rows).1 := by
  intro r' hm
  rcases List.mem_map.mp hm with ⟨r, hr, rfl⟩
  obtain ⟨hw0, hw1⟩ := hinv r hr
  by_cases hc : decayMatch now daysOld r = true
  · rw [if_pos hc]
    exact ⟨le_max_left _ _, max_le (by norm_num) (by linarith)⟩
  · rw [if_neg hc]
    exact ⟨hw0, hw1⟩

/-- findOrCreateCoActivationSynapse preserves the weight invariant: it either
strengthens by the nonnegative 0.05 or inserts weight 0.3. -/
theorem weightInv_findOrCreate (neuronIds : List String) (id : Nat) (now : ℚ)
    (s t : String) (rows rows' : List SynRow) (hinv : weightInv rows)
    (h : findOrCreateCoActivationSynapse neuronIds id now s t rows = .ok rows') :
    weightInv rows' := by
  unfold findOrCreateCoActivationSynapse at h
  split at h
  · simp only [Except.ok.injEq] at h
    rw [← h]
    exact weightInv_strengthen now s t (1/20) rows (by norm_num) hinv
  · cases hcs : createSynapse neuronIds id now
        { source_id := s, target_id := t, weight := 3/10
          type := SynType.co_activation, metadata := none } rows with
    | ok pr =>
      obtain ⟨rows1, ret⟩ := pr
      rw [hcs] at h
      simp only [Except.ok.injEq] at h
      rw [← h]
      exact weightInv_createSynapse neuronIds id now _ rows rows1 ret hinv
        (by norm_num) (by norm_num) hcs
    | error e =>
      rw [hcs] at h
      exact absurd h (by simp)

/-- Every single well-conditioned operation preserves the weight invariant;
a thrown operation leaves the table unchanged. -/
theorem weightInv_applyOp (neuronIds : List String) (rows : List SynRow)
    (op : StoreOp) (hinv : weightInv rows) (hop : opWeightsOK op = true) :
    weightInv (applyOp neuronIds rows op) := by
  cases op with
  | createOp id now input =>
    simp only [opWeightsOK, Bool.and_eq_true, decide_eq_true_eq] at hop
    simp only [applyOp]
    cases hcs : createSynapse neuronIds id now input rows with
    | ok pr =>
      obtain ⟨rows1, ret⟩ := pr
      exact weightInv_createSynapse neuronIds id now input rows rows1 ret hinv
        hop.1 hop.2 hcs
    | error e => exact hinv
  | createBatchOp now items =>
    simp only [opWeightsOK, List.all_eq_true, Bool.and_eq_true,
      decide_eq_true_eq] at hop
    simp only [applyOp]
    cases hcs : createSynapsesBatch neuronIds now items rows with
    | ok rows1 =>
      exact weightInv_batchAux neuronIds now items rows rows1 hinv hop hcs
    | error e => exact hinv
  | strengthenOp now s t d =>
    simp only [opWeightsOK, decide_eq_true_eq] at hop
    exact weightInv_strengthen now s t d rows hop hinv
  | weakenOp s t d =>
    simp only [opWeightsOK, decide_eq_true_eq] at hop
    exact weightInv_weaken s t d rows hop hinv
  | decayOp now daysOld d =>
    simp only [opWeightsOK, decide_eq_true_eq] at hop
    exact weightInv_decay now daysOld d rows hop hinv
  | observeOp id now s t =>
    simp only [applyOp]
    cases hcs : findOrCreateCoActivationSynapse neuronIds id now s t rows with
    | ok rows1 =>
      exact weightInv_findOrCreate neuronIds id now s t rows rows1 hinv hcs
    | error e => exact hinv

/-- C1 counterexample: createSynapse applies no clamping, so a single create
call with input weight 2 leaves a stored synapse whose weight is 2, outside
the unit interval, refuting the claim for inputs outside [0, 1]. -/
theorem create_unclamped_weight_escapes :
    ¬ weightInv (applyOps ["n1", "n2"]
      [.createOp 1 0 { source_id := "n1", target_id := "n2", weight := 2
                       type := SynType.imports, metadata := none }] []) := by
  norm_num [weightInv, applyOps, applyOp, createSynapse, tripleConflict,
    idConflict, fkOk, mkSynRow]

/-- C1 amended: every stored weight stays in [0, 1] under any sequence of
create, batch-create, strengthen (nonnegative delta), weaken (nonnegative
magnitude), decay and observe operations, provided each created weight
already lies in [0, 1]; createSynapse itself does not clamp, so the
restriction on created weights cannot be dropped. -/
theorem weight_invariant_preserved (neuronIds : List String)
    (ops : List StoreOp) (rows : List SynRow) (hinv : weightInv rows)
    (hops : ∀ op ∈ ops, opWeightsOK op = true) :
    weightInv (applyOps neuronIds ops rows) := by
  induction ops generalizing rows with
  | nil => exact hinv
  | cons op rest ih =>
    simp only [applyOps, List.foldl_cons]
    exact ih (applyOp neuronIds rows op)
      (weightInv_applyOp neuronIds rows op hinv (hops op (List.mem_cons_self _ _)))
      (fun q hq => hops q (List.mem_cons_of_mem _ hq))

/-- Witness for weight_invariant_preserved: a create at weight 0.5 followed
by strengthen, weaken, decay and observe keeps all weights in [0, 1]. -/
theorem weight_invariant_preserved_witness :
    weightInv (applyOps ["n1", "n2"]
      [.createOp 1 0 { source_id := "n1", target_id := "n2", weight := 1/2
                       type := SynType.imports, metadata := none },
       .strengthenOp 3 "n1" "n2" (1/20),
       .weakenOp "n1" "n2" (1/100),
       .decayOp 9 7 (1/100),
       .observeOp 2 9 "n1" "n2"] []) :=
  weight_invariant_preserved ["n1", "n2"] _ [] (by intro r hr; cases hr)
    (by
      intro op hop
      simp only [List.mem_cons, List.not_mem_nil, or_false] at hop
      rcases hop with rfl | rfl | rfl | rfl | rfl <;> norm_num [opWeightsOK])

/-! C4 -/

/-- createSynapse preserves the no-self-loop invariant exactly when the
caller's input has distinct endpoints; nothing in the DDL or the code
enforces this. -/
theorem noSelfLoop_createSynapse (neuronIds : List String) (id : Nat)
    (now : ℚ) (input : SynapseCreateInput) (rows rows' : List SynRow)
    (ret : Option SynRow) (hinv : noSelfLoop rows)
    (hne : input.source_id ≠ input.target_id)
    (h : createSynapse neuronIds id now input rows = .ok (rows', ret)) :
    noSelfLoop rows' := by
  unfold createSynapse at h
  split at h
  · simp only [Except.ok.injEq, Prod.mk.injEq] at h
    rw [← h.1]
    exact hinv
  · split at h
    · exact absurd h (by simp)
    · simp only [Except.ok.injEq, Prod.mk.injEq] at h
      rw [← h.1]
      intro r hm
      rcases List.mem_append.mp hm with hm | hm
      · exact hinv r hm
      · rw [List.mem_singleton.mp hm]
        exact hne

/-- The batch loop preserves the no-self-loop invariant when every item has
distinct endpoints. -/
theorem noSelfLoop_batchAux (neuronIds : List String) (now : ℚ)
    (items : List (Nat × SynapseCreateInput)) :
    ∀ rows rows', noSelfLoop rows →
    (∀ p ∈ items, p.2.source_id ≠ p.2.target_id) →
    createSynapsesBatchAux neuronIds now items rows = .ok rows' →
    noSelfLoop rows' := by
  induction items with
  | nil =>
    intro rows rows' hinv _ h
    simp only [createSynapsesBatchAux, Except.ok.injEq] at h
    rw [← h]
    exact hinv
  | cons p rest ih =>
    intro rows rows' hinv hne h
    obtain ⟨pid, pinput⟩ := p
    rw [createSynapsesBatchAux] at h
    cases hcs : createSynapse neuronIds pid now pinput rows with
    | ok pr =>
      obtain ⟨rows1, ret⟩ := pr
      rw [hcs] at h
      exact ih rows1 rows'
        (noSelfLoop_createSynapse neuronIds pid now pinput rows rows1 ret hinv
          (hne (pid, pinput) (List.mem_cons_self _ _)) hcs)
        (fun q hq => hne q (List.mem_cons_of_mem _ hq)) h
    | error e =>
      rw [hcs] at h
      exact absurd h (by simp)

/-- The weight-adjusting UPDATEs never change endpoints, so they preserve
the no-self-loop invariant. -/
theorem noSelfLoop_updates (now daysOld d : ℚ) (s t : String)
    (rows : List SynRow) (hinv : noSelfLoop rows) :
    noSelfLoop (strengthenSynapse now s t d rows) ∧
    noSelfLoop (weakenSynapse s t d rows) ∧
    noSelfLoop (decayUnusedSynapses now daysOld d rows).1 := by
  refine ⟨?_, ?_, ?_⟩ <;>
  · intro r' hm
    rcases List.mem_map.mp hm with ⟨r, hr, rfl⟩
    have := hinv r hr
    split <;> simpa

/-- Every single operation with distinct-endpoint inputs preserves the
no-self-loop invariant. -/
theorem noSelfLoop_applyOp (neuronIds : List String) (rows : List SynRow)
    (op : StoreOp) (hinv : noSelfLoop rows) (hop : opNoLoopOK op = true) :
    noSelfLoop (applyOp neuronIds rows op) := by
  cases op with
  | createOp id now input =>
    simp only [opNoLoopOK, Bool.not_eq_eq_eq_not, Bool.not_true,
      beq_eq_false_iff_ne, ne_eq] at hop
    simp only [applyOp]
    cases hcs : createSynapse neuronIds id now input rows with
    | ok pr =>
      obtain ⟨rows1, ret⟩ := pr
      exact noSelfLoop_createSynapse neuronIds id now input rows rows1 ret hinv
        hop hcs
    | error e => exact hinv
  | createBatchOp now items =>
    simp only [opNoLoopOK, List.all_eq_true, Bool.not_eq_eq_eq_not,
      Bool.not_true, beq_eq_false_iff_ne, ne_eq] at hop
    simp only [applyOp]
    cases hcs : createSynapsesBatch neuronIds now items rows with
    | ok rows1 =>
      exact noSelfLoop_batchAux neuronIds now items rows rows1 hinv hop hcs
    | error e => exact hinv
  | strengthenOp now s t d =>
    exact (noSelfLoop_updates now 0 d s t rows hinv).1
  | weakenOp s t d =>
    exact (noSelfLoop_updates 0 0 d s t rows hinv).2.1
  | decayOp now daysOld d =>
    exact (noSelfLoop_updates now daysOld d "" "" rows hinv).2.2
  | observeOp id now s t =>
    simp only [opNoLoopOK, Bool.not_eq_eq_eq_not, Bool.not_true,
      beq_eq_false_iff_ne, ne_eq] at hop
    simp only [applyOp]
    cases hcs : findOrCreateCoActivationSynapse neuronIds id now s t rows with
    | ok rows1 =>
      unfold findOrCreateCoActivationSynapse at hcs
      split at hcs
      · simp only [Except.ok.injEq] at hcs
        rw [← hcs]
        exact (noSelfLoop_updates now 0 (1/20) s t rows hinv).1
      · cases hcr : createSynapse neuronIds id now
            { source_id := s, target_id := t, weight := 3/10
              type := SynType.co_activation, metadata := none } rows with
        | ok pr =>
          obtain ⟨rows2, ret⟩ := pr
          rw [hcr] at hcs
          simp only [Except.ok.injEq] at hcs
          rw [← hcs]
          exact noSelfLoop_createSynapse neuronIds id now _ rows rows2 ret hinv
            hop hcr
        | error e =>
          rw [hcr] at hcs
          exact absurd hcs (by simp)
    | error e => exact hinv

/-- C4 counterexample: neither the synapses DDL nor createSynapse checks the
endpoints, so creating an edge from the existing neuron n1 to itself stores
a self-loop row, refuting the claim. -/
theorem self_loop_stored :
    ¬ noSelfLoop (applyOps ["n1"]
      [.createOp 1 0 { source_id := "n1", target_id := "n1", weight := 1/2
                       type := SynType.imports, metadata := none }] []) := by
  norm_num [noSelfLoop, applyOps, applyOp, createSynapse, tripleConflict,
    idConflict, fkOk, mkSynRow]

/-- C4 amended: the store preserves the no-self-loop invariant only under the
side condition that no create, batch-create or observe operation is invoked
with equal endpoints; the code itself never rejects a self-loop, so a caller
passing equal ids stores one. -/
theorem no_self_loop_preserved (neuronIds : List String) (ops : List StoreOp)
    (rows : List SynRow) (hinv : noSelfLoop rows)
    (hops : ∀ op ∈ ops, opNoLoopOK op = true) :
    noSelfLoop (applyOps neuronIds ops rows) := by
  induction ops generalizing rows with
  | nil => exact hinv
  | cons op rest ih =>
    simp only [applyOps, List.foldl_cons]
    exact ih (applyOp neuronIds rows op)
      (noSelfLoop_applyOp neuronIds rows op hinv (hops op (List.mem_cons_self _ _)))
      (fun q hq => hops q (List.mem_cons_of_mem _ hq))

/-- Witness for no_self_loop_preserved on a concrete distinct-endpoint
sequence mixing create, observe and decay. -/
theorem no_self_loop_preserved_witness :
    noSelfLoop (applyOps ["n1", "n2"]
      [.createOp 1 0 { source_id := "n1", target_id := "n2", weight := 1/2
                       type := SynType.imports, metadata := none },
       .observeOp 2 3 "n1" "n2",
       .decayOp 9 7 (1/100)] []) :=
  no_self_loop_preserved ["n1", "n2"] _ [] (by intro r hr; cases hr)
    (by
      intro op hop
      simp only [List.mem_cons, List.not_mem_nil, or_false] at hop
      rcases hop with rfl | rfl | rfl <;> decide)

/-! C9 -/

/-- C9: creating a neuron on a table without the fresh id succeeds, and the
read-back through getNeuron returns a record whose scalar fields equal the
input's and whose embedding is byte-for-byte the input embedding — a
zero-length input embedding is stored as a zero-length blob and read back as
a zero-length vector. -/
theorem neuron_round_trip (id now : String) (input : NeuronCreateInput)
    (rows : List NeuronRow) (hid : ∀ r ∈ rows, ¬ r.id = id) :
    createNeuron id now input rows =
      .ok (rows ++ [mkNeuronRow id now input],
           some (rowToNeuron (mkNeuronRow id now input))) ∧
    getNeuron id (rows ++ [mkNeuronRow id now input]) =
      some (rowToNeuron (mkNeuronRow id now input)) ∧
    rowToNeuron (mkNeuronRow id now input) =
      { id := id, content := input.content, summary := input.summary
        embedding := input.embedding, file_path := input.file_path
        start_line := input.start_line, end_line := input.end_line
        type := input.type, name := input.name, language := input.language
        activation_count := 0, last_activated := none
        created_at := now, updated_at := now } := by
  have hany : (rows.any fun r => r.id == id) = false := by
    simp only [List.any_eq_false]
    intro r hr
    simp [hid r hr]
  have hget : getNeuron id (rows ++ [mkNeuronRow id now input]) =
      some (rowToNeuron (mkNeuronRow id now input)) := by
    unfold getNeuron
    rw [List.find?_append]
    have hfind : List.find? (fun r => r.id == id) rows = none := by
      apply List.find?_eq_none.mpr
      intro r hr hc
      exact hid r hr (by simpa using hc)
    rw [hfind]
    simp [mkNeuronRow]
  refine ⟨?_, hget, rfl⟩
  unfold createNeuron
  rw [hany]
  simp only [Bool.false_eq_true, if_false]
  rw [hget]

/-- A sample neuron input carrying one little-endian float (1.0f). -/
def demoNeuronInput : NeuronCreateInput :=
  { content := "const x = 1", summary := "a constant", embedding := [0, 0, 128, 63]
    file_path := "src/a.ts", start_line := 1, end_line := 1
    type := NeuronType.function, name := "x", language := "ts" }

/-- The same input with an empty embedding. -/
def emptyEmbeddingInput : NeuronCreateInput :=
  { demoNeuronInput with embedding := [] }

/-- Witness for neuron_round_trip: a concrete round trip on an empty table,
plus the empty-embedding case reading back as a zero-length vector. -/
theorem neuron_round_trip_witness :
    (getNeuron "N1" ([] ++ [mkNeuronRow "N1" "T0" demoNeuronInput]) =
       some (rowToNeuron (mkNeuronRow "N1" "T0" demoNeuronInput)) ∧
     (rowToNeuron (mkNeuronRow "N1" "T0" demoNeuronInput)).embedding =
       demoNeuronInput.embedding) ∧
    (rowToNeuron (mkNeuronRow "N2" "T0" emptyEmbeddingInput)).embedding = [] := by
  refine ⟨⟨?_, ?_⟩, ?_⟩
  · exact (neuron_round_trip "N1" "T0" demoNeuronInput [] (by simp)).2.1
  · rw [(neuron_round_trip "N1" "T0" demoNeuronInput [] (by simp)).2.2]
  · rw [(neuron_round_trip "N2" "T0" emptyEmbeddingInput [] (by simp)).2.2]
    rfl

end NeuralRag
